import Mathlib

/-!
Verification of the test-isolation and session-state subsystem of the
`@g-1/test` toolkit: the cookie-jar HTTP test client
(`src/utils/http-client.ts`, `src/core.ts`), the scoped test-data store
(`src/store.ts`), the seeded data factory (factory module), and the
database adapters (adapters module).

The TypeScript sources are embedded shallowly:

* A JavaScript `Map` (which iterates in insertion order, updates a present
  key in place and appends an absent one at the end) is modelled as an
  association list `List (String × V)` with `mapSet` / `mapGet` /
  `mapDelete` / `mapKeys` mirroring `Map.set` / `get` / `delete` / `keys`.
* A JavaScript `Headers` object is the same association list, with names
  normalised to lower case on `set`, as the platform does.
* `key.startsWith(p)` is `strStartsWith`, prefix comparison on the
  character data of the strings.
* Async methods become pure state-passing functions; a rejected promise
  becomes an `Except.error` or an explicit error field of the result.
-/

namespace GTest

/-- JS `Map.set`: replace the entry whose key is already present (keeping
its position), otherwise append the entry at the end. -/
def mapSet {V : Type} : List (String × V) → String → V → List (String × V)
  | [], k, v => [(k, v)]
  | p :: m, k, v => if p.1 = k then (k, v) :: m else p :: mapSet m k v

/-- JS `Map.get`: value of the first entry with the given key. -/
def mapGet {V : Type} : List (String × V) → String → Option V
  | [], _ => none
  | p :: m, k => if p.1 = k then some p.2 else mapGet m k

/-- JS `Map.delete`: remove the entry with the given key. -/
def mapDelete {V : Type} : List (String × V) → String → List (String × V)
  | [], _ => []
  | p :: m, k => if p.1 = k then m else p :: mapDelete m k

/-- JS `Map.keys()` as a list, in insertion order. -/
def mapKeys {V : Type} (m : List (String × V)) : List String :=
  m.map (fun p => p.1)

/-- JS `String.prototype.startsWith`. -/
def strStartsWith (s p : String) : Bool :=
  p.data.isPrefixOf s.data

/-- ASCII lower-casing of a header name, as the `Headers` class applies
to every name. -/
def strLower (s : String) : String :=
  String.mk (s.data.map Char.toLower)

/-- First-some choice on options (used to state header precedence). -/
def optOr {A : Type} : Option A → Option A → Option A
  | some x, _ => some x
  | none, b => b

/-- The value of the last entry of `l` whose (lower-cased) name is `k`:
what a sequence of `Headers.set` calls leaves behind for that name. -/
def lastAssocLower (l : List (String × String)) (k : String) : Option String :=
  (l.reverse.find? (fun p => strLower p.1 == k)).map (fun p => p.2)

/-! ## HTTP test client (`src/utils/http-client.ts`)

The response object is reduced to the parts the client reads: its status,
its `set-cookie` header (`none` when absent) and its body text.  The
`responseTime` / `request` fields stapled onto the returned response and
the wall-clock timestamp of a history entry are not modelled.  The request
dispatcher (`this.app.request`, the application under test) is an external
collaborator: it is a parameter mapping the attempt number and the
outgoing headers to either a response or a failure.  A dispatch failure
subsumes both a network error and the loss of the timeout race, since the
client treats them identically. -/

structure Resp where
  status : Nat
  setCookie : Option String
  body : String
deriving DecidableEq

/-- Model of `options.expectedStatus`: a single status code or an array of them. -/
inductive ExpectedStatus
  | single (code : Nat)
  | multiple (codes : List Nat)
deriving DecidableEq

/-- Model of `Array.isArray(options.expectedStatus) ? it : [it]`. -/
def normalizeExpected : ExpectedStatus → List Nat
  | ExpectedStatus.single c => [c]
  | ExpectedStatus.multiple cs => cs

/-- The fields of `TestRequestOptions` the client reads (`timeout` only
feeds the timeout race, which is folded into the dispatcher outcome). -/
structure TestRequestOptions where
  headers : List (String × String)
  expectedStatus : Option ExpectedStatus
  retries : Option Nat
  cookieJar : Option String
deriving DecidableEq

/-- Model of `HttpClientOptions` as stored in `this.options`.  The constructor
fills defaults and `request` applies the same fallbacks again, so the
observable behaviour only depends on the request-time fallbacks modelled
in `request` / `prepareHeaders`. -/
structure HttpClientOptions where
  defaultHeaders : List (String × String)
  retries : Option Nat
  cookieJar : Option String
deriving DecidableEq

/-- Mutable client state: `this.cookieJars` and `this.requestHistory`. -/
structure ClientState where
  cookieJars : List (String × String)
  history : List (TestRequestOptions × Resp)
deriving DecidableEq

/-- The two ways an attempt can fail: the client's own
`Expected status ...` error (recognised in the catch block by its
message) and a dispatch/timeout rejection. -/
inductive ReqError
  | statusMismatch (expected : List Nat) (got : Nat) (body : String)
  | dispatchFailed (msg : String)
deriving DecidableEq

inductive DispatchResult
  | ok (r : Resp)
  | err (msg : String)
deriving DecidableEq

instance {E A : Type} [DecidableEq E] [DecidableEq A] : DecidableEq (Except E A) :=
  fun a b =>
    match a, b with
    | Except.ok x, Except.ok y =>
      if h : x = y then isTrue (by rw [h]) else isFalse (by simp [h])
    | Except.error x, Except.error y =>
      if h : x = y then isTrue (by rw [h]) else isFalse (by simp [h])
    | Except.ok _, Except.error _ => isFalse (by simp)
    | Except.error _, Except.ok _ => isFalse (by simp)

/-- What one call of `request` produces: the settled promise, the final
client state, how many times the dispatcher ran, and the backoff delays
(in ms) slept between attempts, in order. -/
structure RequestOutcome where
  result : Except ReqError Resp
  state : ClientState
  dispatches : Nat
  delays : List Nat
deriving DecidableEq

/-- JS `a || b` for an optional string (empty string is falsy). -/
def jsOrStr (a : Option String) (b : String) : String :=
  match a with
  | some s => if s = "" then b else s
  | none => b

/-- JS `a ?? b` for an optional number. -/
def jsNullish (a : Option Nat) (b : Nat) : Nat :=
  match a with
  | some n => n
  | none => b

/-- Model of `options.cookieJar || this.options.cookieJar || 'default'`. -/
def resolveJarKey (opts : TestRequestOptions) (copts : HttpClientOptions) : String :=
  jsOrStr opts.cookieJar (jsOrStr copts.cookieJar "default")

/-- JS `Headers.set` (header names are normalised to lower case). -/
def headersSet (hs : List (String × String)) (k v : String) : List (String × String) :=
  mapSet hs (strLower k) v

/-- JS `Headers.has`. -/
def headersHas (hs : List (String × String)) (k : String) : Bool :=
  (mapGet hs (strLower k)).isSome

/-- Model of `HttpTestClient.prepareHeaders`: default headers, then per-request
headers, then the stored cookie when truthy and no cookie header is
present yet. -/
def prepareHeaders (copts : HttpClientOptions) (jars : List (String × String))
    (opts : TestRequestOptions) : List (String × String) :=
  let hs := copts.defaultHeaders.foldl (fun acc p => headersSet acc p.1 p.2) []
  let hs := opts.headers.foldl (fun acc p => headersSet acc p.1 p.2) hs
  let jarKey := resolveJarKey opts copts
  match mapGet jars jarKey with
  | some c => if c ≠ "" ∧ headersHas hs "cookie" = false then headersSet hs "cookie" c else hs
  | none => hs

/-- Model of `HttpTestClient.handleResponse`: store a truthy `set-cookie` header
in the jar for the session key (last write wins). -/
def handleResponse (st : ClientState) (jarKey : String) (r : Resp) : ClientState :=
  match r.setCookie with
  | some c => if c = "" then st else { st with cookieJars := mapSet st.cookieJars jarKey c }
  | none => st

/-- The retry loop of `HttpTestClient.request`: `attempt` is the loop
counter, `remaining` is `retries - attempt`.  On a response the
`set-cookie` header is stored, then the status is validated (a mismatch
breaks the loop), then the history entry is pushed and the response
returned.  On a dispatch failure the loop either rethrows (last attempt)
or sleeps `2 ** attempt * 100` ms and retries. -/
def requestGo (dispatch : Nat → DispatchResult) (opts : TestRequestOptions)
    (expected : Option (List Nat)) (jarKey : String) :
    Nat → Nat → ClientState → RequestOutcome
  | attempt, remaining, st =>
    match dispatch attempt with
    | DispatchResult.ok resp =>
      let st1 := handleResponse st jarKey resp
      match expected with
      | some exp =>
        if resp.status ∈ exp then
          ⟨Except.ok resp, { st1 with history := st1.history ++ [(opts, resp)] }, 1, []⟩
        else
          ⟨Except.error (ReqError.statusMismatch exp resp.status resp.body), st1, 1, []⟩
      | none =>
        ⟨Except.ok resp, { st1 with history := st1.history ++ [(opts, resp)] }, 1, []⟩
    | DispatchResult.err msg =>
      match remaining with
      | 0 => ⟨Except.error (ReqError.dispatchFailed msg), st, 1, []⟩
      | Nat.succ rem =>
        let out := requestGo dispatch opts expected jarKey (attempt + 1) rem st
        ⟨out.result, out.state, out.dispatches + 1, (2 ^ attempt * 100) :: out.delays⟩

/-- Model of `HttpTestClient.request`: resolve the retry budget and session key,
prepare the headers once, then run the attempt loop. -/
def request (dispatch : Nat → List (String × String) → DispatchResult)
    (copts : HttpClientOptions) (opts : TestRequestOptions)
    (st : ClientState) : RequestOutcome :=
  let retries := jsNullish opts.retries (jsNullish copts.retries 0)
  let jarKey := resolveJarKey opts copts
  let headers := prepareHeaders copts st.cookieJars opts
  let expected := Option.map normalizeExpected opts.expectedStatus
  requestGo (fun attempt => dispatch attempt headers) opts expected jarKey 0 retries st

/-- The frame/effect contract of one `request` call on the client state,
by case on how the call settled.  Success: the returned response's
`set-cookie` (when truthy) is stored for the session key and exactly one
history entry — the returned response — is appended.  Dispatch failure
(retries exhausted): neither the cookie jar nor the history changed.
Status mismatch: nothing was appended to the history, but the failing
attempt's response was dispatched and its `set-cookie` (when truthy) was
stored in the jar before the status check ran. -/
def RequestEffects (dispatch : Nat → DispatchResult) (opts : TestRequestOptions)
    (st : ClientState) (jarKey : String) (out : RequestOutcome) : Prop :=
  match out.result with
  | Except.ok r =>
    out.state.cookieJars = (handleResponse st jarKey r).cookieJars ∧
    out.state.history = st.history ++ [(opts, r)] ∧
    ∃ i, dispatch i = DispatchResult.ok r
  | Except.error (ReqError.dispatchFailed m) =>
    out.state = st ∧ ∃ i, dispatch i = DispatchResult.err m
  | Except.error (ReqError.statusMismatch exp got body) =>
    out.state.history = st.history ∧
    ∃ r, (∃ i, dispatch i = DispatchResult.ok r) ∧ r.status = got ∧ r.body = body ∧
      got ∉ exp ∧
      out.state.cookieJars = (handleResponse st jarKey r).cookieJars

/-! ## Legacy cookie helpers (`src/core.ts`) -/

/-- Model of `requestWithCookies`: attach the stored cookie for the jar key when
truthy and no explicit cookie header is present, dispatch, then capture a
truthy `set-cookie` response header into the jar.  The dispatcher is the
external application under test, mapping the outgoing headers to a
response. -/
def requestWithCookies (dispatch : List (String × String) → Resp)
    (initHeaders : List (String × String)) (jarKey : String)
    (jar : List (String × String)) : Resp × List (String × String) :=
  let headers := initHeaders.foldl (fun acc p => headersSet acc p.1 p.2) []
  let headers :=
    match mapGet jar jarKey with
    | some c => if c ≠ "" ∧ headersHas headers "cookie" = false then headersSet headers "cookie" c else headers
    | none => headers
  let resp := dispatch headers
  let jar2 :=
    match resp.setCookie with
    | some c => if c = "" then jar else mapSet jar jarKey c
    | none => jar
  (resp, jar2)

/-! ## Scoped test data (`src/store.ts`)

A `TestDataStore` backing map is the association-list model of a JS `Map`;
a `ScopedTestData` instance is the scope string acting on that map.
Values are an arbitrary type `V`. -/

/-- Model of `ScopedTestData.getScopedKey`. -/
def getScopedKey (scope k : String) : String :=
  scope ++ ":" ++ k

/-- Model of `ScopedTestData.set`. -/
def scopedSet {V : Type} (scope : String) (st : List (String × V)) (k : String)
    (v : V) : List (String × V) :=
  mapSet st (getScopedKey scope k) v

/-- Model of `ScopedTestData.get`. -/
def scopedGet {V : Type} (scope : String) (st : List (String × V)) (k : String) :
    Option V :=
  mapGet st (getScopedKey scope k)

/-- Model of `ScopedTestData.delete`. -/
def scopedDelete {V : Type} (scope : String) (st : List (String × V)) (k : String) :
    List (String × V) :=
  mapDelete st (getScopedKey scope k)

/-- Model of `ScopedTestData.clear`: enumerate all backing-store keys, filter by
the `scope + ":"` prefix, delete the matches in order. -/
def scopedClear {V : Type} (scope : String) (st : List (String × V)) :
    List (String × V) :=
  let pre := scope ++ ":"
  let keysToDelete := (mapKeys st).filter (fun key => strStartsWith key pre)
  keysToDelete.foldl (fun acc key => mapDelete acc key) st

/-! ## Seeded data factory (factory module)

The factory delegates all randomness to the external `faker` library.
Modelled from the spec: faker is "an external deterministic random
generator" for which "constructing or reseeding with the same seed value
must make subsequent generator calls reproduce the same output sequence,
given the same call order" (spec sections 3 and 4.6).  So faker's global
state is a pair (seed, position); `faker.seed(s)` rewinds it to
`(s, 0)`; each draw yields a value determined injectively by the pair
(`Nat.pair`) and advances the position.  A generator such as `user()`
makes a fixed sequence of faker calls; it is abstracted to a single draw,
whose value stands for the whole generated record. -/

structure FakerState where
  seed : Nat
  pos : Nat
deriving DecidableEq

/-- Model of `faker.seed(s)`. -/
def fakerSeed (s : Nat) : FakerState :=
  ⟨s, 0⟩

/-- One faker draw: the value is a function of the seed and of how many
draws happened since the last reseed. -/
def fakerDraw (fs : FakerState) : Nat × FakerState :=
  (Nat.pair fs.seed fs.pos, ⟨fs.seed, fs.pos + 1⟩)

/-- The factory instance state: `this.seed` (`this.locale` plays no role
in generation in the source and is omitted). -/
structure TestDataFactory where
  seed : Nat
deriving DecidableEq

/-- Model of `TestDataFactory.setSeed`: set `this.seed` and reseed faker. -/
def setSeed (s : Nat) : TestDataFactory × FakerState :=
  (⟨s⟩, fakerSeed s)

/-- The generator body of `factory.user(...)` (see the faker model
comment above). -/
def userGen (fs : FakerState) : Nat × FakerState :=
  fakerDraw fs

/-- The wrapper produced by `TestDataFactory.createFactory`: save
`this.seed`, apply a per-call seed override via `faker.seed`, run the
generator, and in the `finally` block reseed faker with the saved seed.
Returns the generated value, the (unchanged) factory and the new faker
state. -/
def callFactory (f : TestDataFactory) (fs : FakerState) (cfg : Option Nat) :
    Nat × TestDataFactory × FakerState :=
  let originalSeed := f.seed
  let fs1 := match cfg with
    | some s => fakerSeed s
    | none => fs
  let res := userGen fs1
  let fs3 := match cfg with
    | some _ => fakerSeed originalSeed
    | none => res.2
  (res.1, f, fs3)

/-- Model of `factory.setSeed(s); factory.user(); factory.user({seed: o})`
followed by one more `factory.user()`: the value of that last call. -/
def seqOverrideThird (s o : Nat) : Nat :=
  let p := setSeed s
  let r1 := callFactory p.1 p.2 none
  let r2 := callFactory r1.2.1 r1.2.2 (some o)
  let r3 := callFactory r2.2.1 r2.2.2 none
  r3.1

/-- Factory and faker state after `n` override-free `factory.user()`
calls. -/
def freshState : TestDataFactory → FakerState → Nat → TestDataFactory × FakerState
  | f, fs, 0 => (f, fs)
  | f, fs, Nat.succ n =>
    let r := callFactory f fs none
    freshState r.2.1 r.2.2 n

/-- The value of the n-th `factory.user()` call (1-based) after a fresh
`factory.setSeed(s)` with no overrides. -/
def seqFreshNth (s n : Nat) : Nat :=
  let p := setSeed s
  let q := freshState p.1 p.2 (n - 1)
  (callFactory q.1 q.2 none).1

/-! ## Database adapters (adapters module) -/

/-- Model of `MemoryDatabaseAdapter`: a live map `db` and a snapshot map
`initialData`. -/
structure MemoryDatabaseAdapter (V : Type) where
  db : List (String × V)
  initialData : List (String × V)
deriving DecidableEq

/-- Model of `MemoryDatabaseAdapter.initialize`: `this.initialData = new Map(this.db)`. -/
def memInitialize {V : Type} (a : MemoryDatabaseAdapter V) : MemoryDatabaseAdapter V :=
  { a with initialData := a.db }

/-- Model of `MemoryDatabaseAdapter.cleanup`: `this.db.clear()`. -/
def memCleanup {V : Type} (a : MemoryDatabaseAdapter V) : MemoryDatabaseAdapter V :=
  { a with db := [] }

/-- Model of `MemoryDatabaseAdapter.reset`: clear `db`, then re-insert every
snapshot entry in iteration order. -/
def memReset {V : Type} (a : MemoryDatabaseAdapter V) : MemoryDatabaseAdapter V :=
  { a with db := a.initialData.foldl (fun m p => mapSet m p.1 p.2) [] }

/-- A SQL table reduced to its name and its number of rows. -/
abbrev TableList := List (String × Nat)

/-- Model of `DELETE FROM "t"`: zero the row count of every table named `t`. -/
def clearTable (tables : TableList) (t : String) : TableList :=
  tables.map (fun p => if p.1 = t then (p.1, 0) else p)

/-- The `for (const table of tables) { ... DELETE ... }` loop inside the
single try/catch of `cleanup`.  `fails t = true` says the `DELETE` on
table `t` throws (the external database is a collaborator, so which
statement throws is a parameter).  Returns the tables after the loop and
the name of the failing table, if the loop was aborted by a throw. -/
def clearTablesLoop (fails : String → Bool) : List String → TableList → TableList × Option String
  | [], tables => (tables, none)
  | t :: ts, tables =>
    if fails t then (tables, some t)
    else clearTablesLoop fails ts (clearTable tables t)

/-- Model of `SqliteDatabaseAdapter` connection state: the user tables and the
`foreign_keys` pragma. -/
structure SqliteDb where
  tables : TableList
  foreignKeys : Bool
deriving DecidableEq

/-- The catalog query of `SqliteDatabaseAdapter.cleanup`:
`type='table' AND name NOT LIKE 'sqlite_%'`. -/
def sqliteUserTables (db : SqliteDb) : List String :=
  (db.tables.map (fun p => p.1)).filter (fun n => !(strStartsWith n "sqlite_"))

/-- Model of `SqliteDatabaseAdapter.cleanup`: query the table names, disable
foreign keys (`foreign_keys = OFF`), clear the tables in order, re-enable
foreign keys — all inside one try/catch whose catch logs
`SQLite cleanup failed:` and returns.  When the loop completes, the
pragma is back ON; when a `DELETE` throws the catch skips the re-enable,
so the pragma stays OFF.  The function is total (it returns the new
state and the warnings logged): no exception reaches the caller. -/
def sqliteCleanup (fails : String → Bool) (db : SqliteDb) : SqliteDb × List String :=
  match clearTablesLoop fails (sqliteUserTables db) db.tables with
  | (tables2, none) => ({ tables := tables2, foreignKeys := true }, [])
  | (tables2, some t) =>
    ({ tables := tables2, foreignKeys := false }, ["SQLite cleanup failed: " ++ t])

/-- The catalog query of `D1DatabaseAdapter.cleanup`:
`name NOT LIKE 'sqlite_%' AND name NOT LIKE '__d1_%'`. -/
def d1UserTables (tables : TableList) : List String :=
  (tables.map (fun p => p.1)).filter
    (fun n => !(strStartsWith n "sqlite_") && !(strStartsWith n "__d1_"))

/-- Model of `D1DatabaseAdapter.cleanup`: query the table names and clear the
tables in order, in one try/catch whose catch logs `D1 cleanup failed:`
and returns. -/
def d1Cleanup (fails : String → Bool) (tables : TableList) : TableList × List String :=
  match clearTablesLoop fails (d1UserTables tables) tables with
  | (tables2, none) => (tables2, [])
  | (tables2, some t) => (tables2, ["D1 cleanup failed: " ++ t])

/-! ## Library lemmas about the map, string and header models -/

theorem mapGet_mapSet {V : Type} (m : List (String × V)) (k : String) (v : V)
    (k2 : String) :
    mapGet (mapSet m k v) k2 = if k2 = k then some v else mapGet m k2 := by
  induction m with
  | nil =>
    by_cases h : k2 = k
    · subst h; simp [mapSet, mapGet]
    · simp [mapSet, mapGet, h, Ne.symm h]
  | cons p m ih =>
    by_cases hp : p.1 = k
    · subst hp
      by_cases h : k2 = p.1
      · subst h; simp [mapSet, mapGet]
      · simp [mapSet, mapGet, h, Ne.symm h]
    · by_cases h2 : p.1 = k2
      · subst h2
        have hk2 : ¬p.1 = k := hp
        simp [mapSet, mapGet, hp, hk2]
      · simp [mapSet, mapGet, hp, h2, ih]

theorem mapGet_mapDelete_ne {V : Type} (m : List (String × V)) (k k2 : String)
    (h : k2 ≠ k) : mapGet (mapDelete m k) k2 = mapGet m k2 := by
  induction m with
  | nil => simp [mapDelete, mapGet]
  | cons p m ih =>
    by_cases hp : p.1 = k
    · subst hp
      simp [mapDelete, mapGet, Ne.symm h]
    · simp [mapDelete, mapGet, hp, ih]

theorem mapGet_eq_none_iff {V : Type} (m : List (String × V)) (k : String) :
    mapGet m k = none ↔ k ∉ mapKeys m := by
  induction m with
  | nil => simp [mapGet, mapKeys]
  | cons p m ih =>
    by_cases hp : p.1 = k
    · subst hp; simp [mapGet, mapKeys]
    · simp [mapGet, mapKeys, hp, ih, Ne.symm hp]

theorem mapGet_mapDelete_self {V : Type} (m : List (String × V)) (k : String)
    (h : (mapKeys m).Nodup) : mapGet (mapDelete m k) k = none := by
  induction m with
  | nil => simp [mapDelete, mapGet]
  | cons p m ih =>
    simp only [mapKeys, List.map_cons, List.nodup_cons] at h
    by_cases hp : p.1 = k
    · subst hp
      simp only [mapDelete, if_pos rfl]
      rw [mapGet_eq_none_iff]
      exact h.1
    · simp only [mapDelete, if_neg hp, mapGet, hp, if_false]
      exact ih h.2

theorem mapKeys_mapDelete_sublist {V : Type} (m : List (String × V)) (k : String) :
    (mapKeys (mapDelete m k)).Sublist (mapKeys m) := by
  induction m with
  | nil => simp [mapDelete, mapKeys]
  | cons p m ih =>
    by_cases hp : p.1 = k
    · simp only [mapDelete, hp, if_pos rfl]
      exact (List.sublist_cons_self _ _)
    · simp only [mapDelete, hp, if_neg hp, mapKeys, List.map_cons]
      exact List.Sublist.cons₂ _ ih

theorem nodup_mapKeys_mapDelete {V : Type} (m : List (String × V)) (k : String)
    (h : (mapKeys m).Nodup) : (mapKeys (mapDelete m k)).Nodup :=
  (mapKeys_mapDelete_sublist m k).nodup h

/-- Deleting a list of keys in order, as `keysToDelete.forEach(key => store.delete(key))`. -/
theorem mapGet_foldl_mapDelete {V : Type} (ks : List String)
    (m : List (String × V)) (k : String) (h : (mapKeys m).Nodup) :
    mapGet (ks.foldl (fun acc key => mapDelete acc key) m) k =
      if k ∈ ks then none else mapGet m k := by
  induction ks generalizing m with
  | nil => simp
  | cons key ks ih =>
    simp only [List.foldl_cons]
    rw [ih (mapDelete m key) (nodup_mapKeys_mapDelete m key h)]
    by_cases hk : k ∈ ks
    · simp [hk]
    · by_cases hke : k = key
      · simp [hk, hke, mapGet_mapDelete_self m key h]
      · simp [hk, hke, mapGet_mapDelete_ne m key k hke]

theorem strStartsWith_append (p s : String) :
    strStartsWith (p ++ s) p = true := by
  simp only [strStartsWith, String.data_append, List.isPrefixOf_iff_prefix]
  exact List.prefix_append _ _

theorem scopedClear_get {V : Type} (scope : String) (st : List (String × V))
    (q : String) (h : (mapKeys st).Nodup) :
    mapGet (scopedClear scope st) q =
      if strStartsWith q (scope ++ ":") = true then none else mapGet st q := by
  simp only [scopedClear]
  rw [mapGet_foldl_mapDelete _ _ _ h]
  by_cases hq : strStartsWith q (scope ++ ":") = true
  · by_cases hmem : q ∈ mapKeys st
    · simp [List.mem_filter, hmem, hq]
    · simp [List.mem_filter, hmem, hq, (mapGet_eq_none_iff st q).mpr hmem]
  · simp [List.mem_filter, hq]

theorem handleResponse_history (st : ClientState) (k : String) (r : Resp) :
    (handleResponse st k r).history = st.history := by
  unfold handleResponse
  cases r.setCookie with
  | none => rfl
  | some c => by_cases hc : c = "" <;> simp [hc]

/-- Unfolding of one loop step when the dispatcher returns a response. -/
theorem requestGo_ok (dispatch : Nat → DispatchResult) (opts : TestRequestOptions)
    (expected : Option (List Nat)) (jarKey : String) (attempt remaining : Nat)
    (st : ClientState) (resp : Resp)
    (hd : dispatch attempt = DispatchResult.ok resp) :
    requestGo dispatch opts expected jarKey attempt remaining st =
      match expected with
      | some exp =>
        if resp.status ∈ exp then
          ⟨Except.ok resp,
           { handleResponse st jarKey resp with
             history := (handleResponse st jarKey resp).history ++ [(opts, resp)] }, 1, []⟩
        else
          ⟨Except.error (ReqError.statusMismatch exp resp.status resp.body),
           handleResponse st jarKey resp, 1, []⟩
      | none =>
        ⟨Except.ok resp,
         { handleResponse st jarKey resp with
           history := (handleResponse st jarKey resp).history ++ [(opts, resp)] }, 1, []⟩ := by
  conv_lhs => rw [requestGo]
  rw [hd]

/-- Unfolding of one loop step on the last attempt when the dispatcher fails. -/
theorem requestGo_err_zero (dispatch : Nat → DispatchResult) (opts : TestRequestOptions)
    (expected : Option (List Nat)) (jarKey : String) (attempt : Nat)
    (st : ClientState) (m : String)
    (hd : dispatch attempt = DispatchResult.err m) :
    requestGo dispatch opts expected jarKey attempt 0 st =
      ⟨Except.error (ReqError.dispatchFailed m), st, 1, []⟩ := by
  conv_lhs => rw [requestGo]
  rw [hd]

/-- Unfolding of one loop step on a non-final attempt when the dispatcher
fails: sleep `2 ** attempt * 100` ms and retry. -/
theorem requestGo_err_succ (dispatch : Nat → DispatchResult) (opts : TestRequestOptions)
    (expected : Option (List Nat)) (jarKey : String) (attempt rem : Nat)
    (st : ClientState) (m : String)
    (hd : dispatch attempt = DispatchResult.err m) :
    requestGo dispatch opts expected jarKey attempt (rem + 1) st =
      ⟨(requestGo dispatch opts expected jarKey (attempt + 1) rem st).result,
       (requestGo dispatch opts expected jarKey (attempt + 1) rem st).state,
       (requestGo dispatch opts expected jarKey (attempt + 1) rem st).dispatches + 1,
       (2 ^ attempt * 100) ::
         (requestGo dispatch opts expected jarKey (attempt + 1) rem st).delays⟩ := by
  conv_lhs => rw [requestGo]
  rw [hd]

/-- The retry loop satisfies the frame/effect contract `RequestEffects`,
at every attempt counter and remaining budget. -/
theorem requestGo_effects (dispatch : Nat → DispatchResult) (opts : TestRequestOptions)
    (expected : Option (List Nat)) (jarKey : String) :
    ∀ remaining attempt st,
      RequestEffects dispatch opts st jarKey
        (requestGo dispatch opts expected jarKey attempt remaining st) := by
  intro remaining
  induction remaining with
  | zero =>
    intro attempt st
    cases hd : dispatch attempt with
    | ok resp =>
      rw [requestGo_ok dispatch opts expected jarKey attempt 0 st resp hd]
      cases expected with
      | none => exact ⟨rfl, by rw [handleResponse_history], ⟨attempt, hd⟩⟩
      | some exp =>
        by_cases hmem : resp.status ∈ exp
        · simp only [if_pos hmem]
          exact ⟨rfl, by rw [handleResponse_history], ⟨attempt, hd⟩⟩
        · simp only [if_neg hmem]
          exact ⟨handleResponse_history st jarKey resp,
            ⟨resp, ⟨attempt, hd⟩, rfl, rfl, hmem, rfl⟩⟩
    | err m =>
      rw [requestGo_err_zero dispatch opts expected jarKey attempt st m hd]
      exact ⟨rfl, ⟨attempt, hd⟩⟩
  | succ rem ih =>
    intro attempt st
    cases hd : dispatch attempt with
    | ok resp =>
      rw [requestGo_ok dispatch opts expected jarKey attempt (rem + 1) st resp hd]
      cases expected with
      | none => exact ⟨rfl, by rw [handleResponse_history], ⟨attempt, hd⟩⟩
      | some exp =>
        by_cases hmem : resp.status ∈ exp
        · simp only [if_pos hmem]
          exact ⟨rfl, by rw [handleResponse_history], ⟨attempt, hd⟩⟩
        · simp only [if_neg hmem]
          exact ⟨handleResponse_history st jarKey resp,
            ⟨resp, ⟨attempt, hd⟩, rfl, rfl, hmem, rfl⟩⟩
    | err m =>
      rw [requestGo_err_succ dispatch opts expected jarKey attempt rem st m hd]
      exact ih (attempt + 1) st

/-! ## Claim theorems -/

/-- C1.  Against a dispatcher that fails on attempts 0 and 1 and succeeds
on attempt 2: with `retries = 2` the client dispatches exactly 3 times,
returns the successful response, and sleeps `100 * 2 ^ 0` ms before retry
attempt 0 and `100 * 2 ^ 1` ms before retry attempt 1 (retry attempts
numbered 0-based); with `retries = 1` it dispatches exactly 2 times (no
third attempt), propagates the second failure, and sleeps only the
`100 * 2 ^ 0` ms delay. -/
theorem c1_retry_budget
    (dispatch : Nat → List (String × String) → DispatchResult)
    (copts : HttpClientOptions) (opts : TestRequestOptions) (st : ClientState)
    (r : Resp) (m0 m1 : String)
    (h0 : ∀ hs, dispatch 0 hs = DispatchResult.err m0)
    (h1 : ∀ hs, dispatch 1 hs = DispatchResult.err m1)
    (h2 : ∀ hs, dispatch 2 hs = DispatchResult.ok r)
    (hexp : opts.expectedStatus = none) :
    (request dispatch copts { opts with retries := some 2 } st).dispatches = 3 ∧
    (request dispatch copts { opts with retries := some 2 } st).result = Except.ok r ∧
    (request dispatch copts { opts with retries := some 2 } st).delays
      = [2 ^ 0 * 100, 2 ^ 1 * 100] ∧
    (request dispatch copts { opts with retries := some 1 } st).dispatches = 2 ∧
    (request dispatch copts { opts with retries := some 1 } st).result
      = Except.error (ReqError.dispatchFailed m1) ∧
    (request dispatch copts { opts with retries := some 1 } st).delays = [2 ^ 0 * 100] := by
  simp [request, requestGo, jsNullish, h0, h1, h2, hexp]

theorem c1_retry_budget_witness :
    (request
      (fun n _ => if n = 0 then DispatchResult.err "e0"
        else if n = 1 then DispatchResult.err "e1"
        else DispatchResult.ok ⟨200, none, "ok"⟩)
      ⟨[], none, none⟩
      { ({ headers := [], expectedStatus := none, retries := none,
           cookieJar := none } : TestRequestOptions) with retries := some 2 }
      ⟨[], []⟩).dispatches = 3 ∧
    (request
      (fun n _ => if n = 0 then DispatchResult.err "e0"
        else if n = 1 then DispatchResult.err "e1"
        else DispatchResult.ok ⟨200, none, "ok"⟩)
      ⟨[], none, none⟩
      { ({ headers := [], expectedStatus := none, retries := none,
           cookieJar := none } : TestRequestOptions) with retries := some 2 }
      ⟨[], []⟩).result = Except.ok ⟨200, none, "ok"⟩ ∧
    (request
      (fun n _ => if n = 0 then DispatchResult.err "e0"
        else if n = 1 then DispatchResult.err "e1"
        else DispatchResult.ok ⟨200, none, "ok"⟩)
      ⟨[], none, none⟩
      { ({ headers := [], expectedStatus := none, retries := none,
           cookieJar := none } : TestRequestOptions) with retries := some 2 }
      ⟨[], []⟩).delays = [2 ^ 0 * 100, 2 ^ 1 * 100] ∧
    (request
      (fun n _ => if n = 0 then DispatchResult.err "e0"
        else if n = 1 then DispatchResult.err "e1"
        else DispatchResult.ok ⟨200, none, "ok"⟩)
      ⟨[], none, none⟩
      { ({ headers := [], expectedStatus := none, retries := none,
           cookieJar := none } : TestRequestOptions) with retries := some 1 }
      ⟨[], []⟩).dispatches = 2 ∧
    (request
      (fun n _ => if n = 0 then DispatchResult.err "e0"
        else if n = 1 then DispatchResult.err "e1"
        else DispatchResult.ok ⟨200, none, "ok"⟩)
      ⟨[], none, none⟩
      { ({ headers := [], expectedStatus := none, retries := none,
           cookieJar := none } : TestRequestOptions) with retries := some 1 }
      ⟨[], []⟩).result = Except.error (ReqError.dispatchFailed "e1") ∧
    (request
      (fun n _ => if n = 0 then DispatchResult.err "e0"
        else if n = 1 then DispatchResult.err "e1"
        else DispatchResult.ok ⟨200, none, "ok"⟩)
      ⟨[], none, none⟩
      { ({ headers := [], expectedStatus := none, retries := none,
           cookieJar := none } : TestRequestOptions) with retries := some 1 }
      ⟨[], []⟩).delays = [2 ^ 0 * 100] :=
  c1_retry_budget _ _ _ _ _ _ _ (fun _ => rfl) (fun _ => rfl) (fun _ => rfl) rfl

/-- C2.  If the dispatcher returns a response whose status is outside the
expected set (here `expectedStatus = 200`, the response status differing
from 200), the dispatcher is invoked exactly once regardless of the retry
budget, and the call fails with the status-mismatch error carrying the
response body text. -/
theorem c2_status_mismatch_not_retried
    (dispatch : Nat → List (String × String) → DispatchResult)
    (copts : HttpClientOptions) (opts : TestRequestOptions) (st : ClientState)
    (r : Resp) (es : ExpectedStatus)
    (hd : ∀ hs, dispatch 0 hs = DispatchResult.ok r)
    (hexp : opts.expectedStatus = some es)
    (hst : r.status ∉ normalizeExpected es) :
    (request dispatch copts opts st).dispatches = 1 ∧
    (request dispatch copts opts st).result
      = Except.error
          (ReqError.statusMismatch (normalizeExpected es) r.status r.body) := by
  simp only [request, hexp, Option.map_some']
  have hd0 : (fun attempt => dispatch attempt (prepareHeaders copts st.cookieJars opts)) 0
      = DispatchResult.ok r := hd _
  rw [requestGo_ok _ opts (some (normalizeExpected es)) _ 0 _ st r hd0]
  simp only [if_neg hst]
  exact ⟨trivial, trivial⟩

theorem c2_status_mismatch_witness :
    (request (fun _ _ => DispatchResult.ok ⟨500, none, "boom"⟩) ⟨[], none, none⟩
      { headers := [], expectedStatus := some (ExpectedStatus.single 200),
        retries := some 3, cookieJar := none } ⟨[], []⟩).dispatches = 1 ∧
    (request (fun _ _ => DispatchResult.ok ⟨500, none, "boom"⟩) ⟨[], none, none⟩
      { headers := [], expectedStatus := some (ExpectedStatus.single 200),
        retries := some 3, cookieJar := none } ⟨[], []⟩).result
      = Except.error (ReqError.statusMismatch [200] 500 "boom") :=
  c2_status_mismatch_not_retried _ _ _ _ ⟨500, none, "boom"⟩ (ExpectedStatus.single 200)
    (fun _ => rfl) rfl (by decide)

/-- C5 (amended).  Effects of one `request` call on the client state:
history is appended exactly on the attempt that completes successfully
(with the returned response); intermediate retried attempts — which never
carry a response — change neither the history nor the cookie jar, and a
call whose retries are exhausted leaves the state untouched; an attempt
whose response fails the expected-status check appends nothing to the
history but does store the response's truthy `set-cookie` header in the
cookie jar (the jar update in `handleResponse` runs before the status
check).  The original claim's stronger reading — that a failed terminal
attempt with a response is appended to history and that a status-mismatch
attempt leaves the cookie jar unchanged — is refuted by
`c5_counterexample`. -/
theorem c5_state_effects (dispatch : Nat → List (String × String) → DispatchResult)
    (copts : HttpClientOptions) (opts : TestRequestOptions) (st : ClientState) :
    RequestEffects (fun attempt => dispatch attempt (prepareHeaders copts st.cookieJars opts))
      opts st (resolveJarKey opts copts) (request dispatch copts opts st) :=
  requestGo_effects (fun attempt => dispatch attempt (prepareHeaders copts st.cookieJars opts))
    opts (Option.map normalizeExpected opts.expectedStatus) (resolveJarKey opts copts)
    (jsNullish opts.retries (jsNullish copts.retries 0)) 0 st

/-- C5, counterexample to the claim as stated.  A single-attempt request
whose response has status 500 (against `expectedStatus = 200`) and
carries `set-cookie: sid=evil`: the attempt is the failed terminal
attempt with a response, yet the history stays empty (the claim says it
is appended), and the cookie jar is mutated to hold the response cookie
(the claim says the jar is left unchanged by such an attempt). -/
theorem c5_counterexample :
    (request (fun _ _ => DispatchResult.ok ⟨500, some "sid=evil", "body"⟩)
      ⟨[], none, none⟩
      { headers := [], expectedStatus := some (ExpectedStatus.single 200),
        retries := some 0, cookieJar := none }
      ⟨[], []⟩).state.history = [] ∧
    (request (fun _ _ => DispatchResult.ok ⟨500, some "sid=evil", "body"⟩)
      ⟨[], none, none⟩
      { headers := [], expectedStatus := some (ExpectedStatus.single 200),
        retries := some 0, cookieJar := none }
      ⟨[], []⟩).state.cookieJars = [("default", "sid=evil")] := by
  constructor <;> rfl

/-- C7.  Last-write-wins for the cookie jar: for any session key, after
receiving response `r1` and then response `r2`, each carrying a (truthy,
distinct) `set-cookie` value, the stored cookie for that key is exactly
`r2`'s value — never a merge.  Stated both for the client's
`handleResponse` and for the legacy `requestWithCookies` helper, whose
second sequential call stores exactly the second response's cookie. -/
theorem c7_cookie_last_write_wins (st : ClientState) (key : String)
    (r1 r2 : Resp) (c1 c2 : String)
    (d1 d2 : List (String × String) → Resp)
    (ih1 ih2 : List (String × String) → List (String × String))
    (jar0 : List (String × String))
    (h1 : r1.setCookie = some c1) (h2 : r2.setCookie = some c2)
    (hc1 : c1 ≠ "") (hc2 : c2 ≠ "") (hne : c1 ≠ c2)
    (hw2 : (requestWithCookies d2 (ih2 jar0) key
              (requestWithCookies d1 (ih1 jar0) key jar0).2).1.setCookie = some c2) :
    mapGet (handleResponse (handleResponse st key r1) key r2).cookieJars key = some c2 ∧
    mapGet (requestWithCookies d2 (ih2 jar0) key
      (requestWithCookies d1 (ih1 jar0) key jar0).2).2 key = some c2 := by
  constructor
  · simp only [handleResponse, h1, h2, if_neg hc1, if_neg hc2]
    rw [mapGet_mapSet]
    simp
  · simp only [requestWithCookies] at hw2 ⊢
    simp only [hw2, if_neg hc2]
    rw [mapGet_mapSet]
    simp

theorem c7_cookie_last_write_wins_witness :
    mapGet (handleResponse (handleResponse ⟨[], []⟩ "default" ⟨200, some "sid=a", ""⟩)
      "default" ⟨200, some "sid=b", ""⟩).cookieJars "default" = some "sid=b" ∧
    mapGet (requestWithCookies (fun _ => ⟨200, some "sid=b", ""⟩) ((fun j => j) [])
      "default"
      (requestWithCookies (fun _ => ⟨200, some "sid=a", ""⟩) ((fun j => j) [])
        "default" []).2).2 "default" = some "sid=b" :=
  c7_cookie_last_write_wins ⟨[], []⟩ "default" ⟨200, some "sid=a", ""⟩
    ⟨200, some "sid=b", ""⟩ "sid=a" "sid=b"
    (fun _ => ⟨200, some "sid=a", ""⟩) (fun _ => ⟨200, some "sid=b", ""⟩)
    (fun j => j) (fun j => j) []
    rfl rfl (by decide) (by decide) (by decide) rfl

theorem optOr_none {A : Type} (a : Option A) : optOr a none = a := by
  cases a <;> rfl

/-- What a left fold of `Headers.set` calls leaves for name `k`: the last
matching entry of the folded list wins, else whatever the accumulator
already held. -/
theorem mapGet_foldl_headersSet (l : List (String × String))
    (hs : List (String × String)) (k : String) :
    mapGet (l.foldl (fun acc p => headersSet acc p.1 p.2) hs) k =
      optOr (lastAssocLower l k) (mapGet hs k) := by
  induction l generalizing hs with
  | nil => simp [lastAssocLower, optOr]
  | cons p l ih =>
    simp only [List.foldl_cons]
    rw [ih]
    have hhead : mapGet (headersSet hs p.1 p.2) k
        = if k = strLower p.1 then some p.2 else mapGet hs k := by
      unfold headersSet
      rw [mapGet_mapSet]
    have htail : lastAssocLower (p :: l) k
        = optOr (lastAssocLower l k)
            (if strLower p.1 == k then some p.2 else none) := by
      unfold lastAssocLower
      rw [List.reverse_cons, List.find?_append]
      cases hf : l.reverse.find? (fun q => strLower q.1 == k) with
      | none =>
        simp only [hf, Option.none_orElse, List.find?_cons, List.find?_nil]
        cases hb : (strLower p.1 == k) <;> simp [optOr, hb]
      | some x =>
        simp [hf, optOr]
    rw [hhead, htail]
    cases hl : lastAssocLower l k with
    | some v => simp [optOr]
    | none =>
      cases hb : (strLower p.1 == k) with
      | true =>
        have hk : k = strLower p.1 := (eq_of_beq hb).symm
        simp [optOr, hb, hk]
      | false =>
        have hk : ¬k = strLower p.1 := by
          intro h
          rw [h] at hb
          simp at hb
        simp [optOr, hb, hk]

theorem mapGet_headersSet (hs : List (String × String)) (k v x : String) :
    mapGet (headersSet hs k v) x = if x = strLower k then some v else mapGet hs x := by
  unfold headersSet
  rw [mapGet_mapSet]

/-- C9.  Header assembly of `prepareHeaders`: for every header name, the
outgoing value is the last per-request header with that (lower-cased)
name if there is one, else the last default header with that name; the
`cookie` header additionally falls back to the stored (truthy) cookie of
the resolved session key when neither the defaults nor the per-request
headers set an explicit cookie header. -/
theorem c9_header_assembly (copts : HttpClientOptions)
    (jars : List (String × String)) (opts : TestRequestOptions) (n : String) :
    mapGet (prepareHeaders copts jars opts) n =
      if n = "cookie" then
        optOr
          (optOr (lastAssocLower opts.headers "cookie")
            (lastAssocLower copts.defaultHeaders "cookie"))
          (match mapGet jars (resolveJarKey opts copts) with
           | some c => if c = "" then none else some c
           | none => none)
      else
        optOr (lastAssocLower opts.headers n)
          (lastAssocLower copts.defaultHeaders n) := by
  unfold prepareHeaders
  have hbase : ∀ x : String,
      mapGet ((opts.headers).foldl (fun acc p => headersSet acc p.1 p.2)
        ((copts.defaultHeaders).foldl (fun acc p => headersSet acc p.1 p.2) [])) x
      = optOr (lastAssocLower opts.headers x)
          (lastAssocLower copts.defaultHeaders x) := by
    intro x
    rw [mapGet_foldl_headersSet, mapGet_foldl_headersSet]
    simp [mapGet, optOr_none]
  have hck : strLower "cookie" = "cookie" := rfl
  cases hj : mapGet jars (resolveJarKey opts copts) with
  | none =>
    simp only [hj]
    by_cases hn : n = "cookie"
    · subst hn
      rw [if_pos rfl, hbase "cookie", optOr_none]
    · rw [if_neg hn, hbase n]
  | some c =>
    simp only [hj]
    by_cases hcond : c ≠ "" ∧ headersHas
        ((opts.headers).foldl (fun acc p => headersSet acc p.1 p.2)
          ((copts.defaultHeaders).foldl (fun acc p => headersSet acc p.1 p.2) [])) "cookie"
        = false
    · simp only [if_pos hcond]
      have hnone : optOr (lastAssocLower opts.headers "cookie")
          (lastAssocLower copts.defaultHeaders "cookie") = none := by
        have hb := hbase "cookie"
        rcases hcond with ⟨hcne, hhas⟩
        unfold headersHas at hhas
        rw [hck] at hhas
        cases hx : mapGet ((opts.headers).foldl (fun acc p => headersSet acc p.1 p.2)
            ((copts.defaultHeaders).foldl (fun acc p => headersSet acc p.1 p.2) [])) "cookie" with
        | none => rw [hx] at hb; exact hb.symm
        | some v => rw [hx] at hhas; simp at hhas
      rcases hcond with ⟨hcne, hhas⟩
      by_cases hn : n = "cookie"
      · subst hn
        rw [mapGet_headersSet, hck, if_pos rfl, if_pos rfl, hnone]
        simp [optOr, hcne]
      · rw [mapGet_headersSet, hck, if_neg hn, if_neg hn, hbase n]
    · simp only [if_neg hcond]
      by_cases hn : n = "cookie"
      · subst hn
        rw [if_pos rfl, hbase "cookie"]
        by_cases hc : c = ""
        · subst hc
          simp [optOr_none]
        · push_neg at hcond
          have hhas := hcond hc
          simp only [Bool.not_eq_false] at hhas
          unfold headersHas at hhas
          rw [hck, hbase "cookie"] at hhas
          cases hx : optOr (lastAssocLower opts.headers "cookie")
              (lastAssocLower copts.defaultHeaders "cookie") with
          | none => rw [hx] at hhas; simp at hhas
          | some v => simp [optOr]
      · rw [if_neg hn, hbase n]

/-! Lemmas for the scoped store and the adapters. -/

theorem strStartsWith_b_not_a (k : String) :
    ¬strStartsWith (getScopedKey "b" k) ("a" ++ ":") = true := by
  unfold getScopedKey strStartsWith
  rw [show ("a" ++ ":" : String) = "a:" from rfl]
  rw [show ("b" ++ ":" : String) = "b:" from rfl]
  rw [String.data_append]
  rw [show ("a:" : String).data = ['a', ':'] from rfl]
  rw [show ("b:" : String).data = ['b', ':'] from rfl]
  intro hpre
  rw [ List.isPrefixOf_iff_prefix] at hpre
  rw [List.cons_append, List.cons_prefix_cons] at hpre
  exact absurd hpre.1 (by decide)

/-- C8.  Clearing scope `"a"` over a shared backing store deletes all of
scope `"a"`'s entries and leaves every key and value of scope `"b"`
unchanged (their physical keys do not carry the `"a:"` prefix). -/
theorem c8_scoped_clear_isolation {V : Type} (st : List (String × V)) (k : String)
    (h : (mapKeys st).Nodup) :
    scopedGet "b" (scopedClear "a" st) k = scopedGet "b" st k ∧
    scopedGet "a" (scopedClear "a" st) k = none := by
  constructor
  · unfold scopedGet
    rw [scopedClear_get "a" st (getScopedKey "b" k) h,
      if_neg (strStartsWith_b_not_a k)]
  · unfold scopedGet
    rw [scopedClear_get "a" st (getScopedKey "a" k) h]
    unfold getScopedKey
    rw [strStartsWith_append ("a" ++ ":") k]
    rfl

theorem c8_scoped_clear_isolation_witness :
    (scopedGet "b" (scopedClear "a" ([("a:x", 0), ("b:y", 1)] : List (String × Nat))) "y"
      = scopedGet "b" ([("a:x", 0), ("b:y", 1)] : List (String × Nat)) "y") ∧
    scopedGet "a" (scopedClear "a" ([("a:x", 0), ("b:y", 1)] : List (String × Nat))) "x"
      = none :=
  ⟨(c8_scoped_clear_isolation [("a:x", 0), ("b:y", 1)] "y" (by decide)).1,
   (c8_scoped_clear_isolation [("a:x", 0), ("b:y", 1)] "x" (by decide)).2⟩

/-- C10.  When one scope string extends another across the `:` separator
(`s2 = s1 ++ ":" ++ t`), isolation breaks: the physical key of every
`s2`-scoped entry coincides with an `s1`-scoped key, so the `s1` instance
reads and deletes `s2`'s entries via keys of the form `t ++ ":" ++ k`,
and `clear()` on the `s1` instance also deletes every `s2`-scoped
entry. -/
theorem c10_scope_prefix_collision {V : Type} (s1 t k : String)
    (st : List (String × V)) (h : (mapKeys st).Nodup) :
    getScopedKey (s1 ++ ":" ++ t) k = getScopedKey s1 (t ++ ":" ++ k) ∧
    scopedGet (s1 ++ ":" ++ t) st k = scopedGet s1 st (t ++ ":" ++ k) ∧
    scopedDelete (s1 ++ ":" ++ t) st k = scopedDelete s1 st (t ++ ":" ++ k) ∧
    mapGet (scopedClear s1 st) (getScopedKey (s1 ++ ":" ++ t) k) = none := by
  have hkey : getScopedKey (s1 ++ ":" ++ t) k = getScopedKey s1 (t ++ ":" ++ k) := by
    simp [getScopedKey, String.append_assoc]
  refine ⟨hkey, ?_, ?_, ?_⟩
  · unfold scopedGet
    rw [hkey]
  · unfold scopedDelete
    rw [hkey]
  · rw [scopedClear_get s1 st _ h, hkey]
    rw [show strStartsWith (getScopedKey s1 (t ++ ":" ++ k)) (s1 ++ ":") = true
      from strStartsWith_append (s1 ++ ":") (t ++ ":" ++ k)]
    simp

theorem c10_scope_prefix_collision_witness :
    getScopedKey ("a" ++ ":" ++ "b") "k" = getScopedKey "a" ("b" ++ ":" ++ "k") ∧
    scopedGet ("a" ++ ":" ++ "b") ([("a:b:k", 7)] : List (String × Nat)) "k"
      = scopedGet "a" ([("a:b:k", 7)] : List (String × Nat)) ("b" ++ ":" ++ "k") ∧
    scopedDelete ("a" ++ ":" ++ "b") ([("a:b:k", 7)] : List (String × Nat)) "k"
      = scopedDelete "a" ([("a:b:k", 7)] : List (String × Nat)) ("b" ++ ":" ++ "k") ∧
    mapGet (scopedClear "a" ([("a:b:k", 7)] : List (String × Nat)))
      (getScopedKey ("a" ++ ":" ++ "b") "k") = none :=
  c10_scope_prefix_collision "a" "b" "k" [("a:b:k", 7)] (by decide)

theorem mapGet_foldl_mapSet {V : Type} (l : List (String × V)) :
    ∀ (acc : List (String × V)) (k : String), (mapKeys l).Nodup →
      (∀ x, x ∈ mapKeys l → mapGet acc x = none) →
      mapGet (l.foldl (fun m p => mapSet m p.1 p.2) acc) k =
        optOr (mapGet l k) (mapGet acc k) := by
  induction l with
  | nil => intro acc k _ _; simp [mapGet, optOr]
  | cons p l ih =>
    intro acc k hnd hdisj
    simp only [mapKeys, List.map_cons, List.nodup_cons] at hnd
    simp only [List.foldl_cons]
    have hdisj2 : ∀ x, x ∈ mapKeys l → mapGet (mapSet acc p.1 p.2) x = none := by
      intro x hx
      rw [mapGet_mapSet]
      have hxne : ¬x = p.1 := fun hxe => hnd.1 (hxe ▸ hx)
      rw [if_neg hxne]
      refine hdisj x ?_
      simp only [mapKeys, List.map_cons]
      exact List.mem_cons_of_mem _ hx
    rw [ih (mapSet acc p.1 p.2) k hnd.2 hdisj2, mapGet_mapSet]
    by_cases hk : k = p.1
    · rw [if_pos hk]
      have hget : mapGet l k = none := by
        rw [mapGet_eq_none_iff, hk]
        exact hnd.1
      rw [hget]
      have hpk : p.1 = k := hk.symm
      simp [mapGet, hpk, optOr]
    · rw [if_neg hk]
      have hpk : ¬p.1 = k := fun hx => hk hx.symm
      simp [mapGet, hpk, optOr]

/-- C6.  The in-memory adapter: `initialize()` snapshots the current live
contents as S0; after replacing the live contents by any mutated map `m`,
`reset()` restores exactly S0 (every lookup agrees with the snapshot),
while `cleanup()` empties the live store. -/
theorem c6_memory_adapter {V : Type} (a : MemoryDatabaseAdapter V)
    (m : List (String × V)) (k : String) (h : (mapKeys a.db).Nodup) :
    (memInitialize a).initialData = a.db ∧
    mapGet (memReset { memInitialize a with db := m }).db k = mapGet a.db k ∧
    (memCleanup { memInitialize a with db := m }).db = [] := by
  refine ⟨rfl, ?_, rfl⟩
  show mapGet (a.db.foldl (fun mm p => mapSet mm p.1 p.2) []) k = mapGet a.db k
  rw [mapGet_foldl_mapSet a.db [] k h (fun x _ => rfl)]
  simp [mapGet, optOr_none]

theorem c6_memory_adapter_witness :
    (memInitialize (⟨[("x", 1)], []⟩ : MemoryDatabaseAdapter Nat)).initialData
      = [("x", 1)] ∧
    mapGet (memReset { memInitialize (⟨[("x", 1)], []⟩ : MemoryDatabaseAdapter Nat) with
      db := [("y", 2)] }).db "x" = mapGet ([("x", 1)] : List (String × Nat)) "x" ∧
    (memCleanup { memInitialize (⟨[("x", 1)], []⟩ : MemoryDatabaseAdapter Nat) with
      db := [("y", 2)] }).db = [] :=
  c6_memory_adapter ⟨[("x", 1)], []⟩ [("y", 2)] "x" (by decide)

/-- C3, counterexample to the claim as stated.  After
`setSeed 1; user(); user({seed: 99})`, the next `user()` call does NOT
produce the third value of a fresh `setSeed 1` sequence: the `finally`
block restores the seed with `faker.seed(originalSeed)`, which rewinds
the generator to the beginning of the seed-1 sequence. -/
theorem c3_counterexample : seqOverrideThird 1 99 ≠ seqFreshNth 1 3 := by
  decide

/-- C3 (amended).  After `setSeed s; user(); user({seed: o})`, the next
`user()` call produces exactly the FIRST value of a fresh `setSeed s`
sequence: restoring the prior seed resets the generator to the start of
the seed-`s` stream, so the override does not leak the override seed `o`
forward, but it does rewind the stream position. -/
theorem c3_override_rewinds (s o : Nat) : seqOverrideThird s o = seqFreshNth s 1 :=
  rfl

theorem mapGet_clearTable (tables : TableList) (t u : String) :
    mapGet (clearTable tables t) u =
      if u = t then (mapGet tables u).map (fun _ => 0) else mapGet tables u := by
  induction tables with
  | nil => by_cases h : u = t <;> simp [clearTable, mapGet, h]
  | cons p m ih =>
    simp only [clearTable, List.map_cons] at ih ⊢
    by_cases hp : p.1 = t
    · subst hp
      by_cases hu : p.1 = u
      · subst hu
        simp [mapGet]
      · have hu2 : ¬u = p.1 := fun hx => hu hx.symm
        rw [if_pos rfl]
        simp only [mapGet, if_neg hu, if_neg hu2]
        rw [ih, if_neg hu2]
    · by_cases hu : p.1 = u
      · subst hu
        have hu2 : ¬p.1 = t := hp
        simp [mapGet, if_neg hu2]
      · simp only [if_neg hp, mapGet, if_neg hu]
        rw [ih]

theorem mapGet_foldl_clearTable (ks : List String) :
    ∀ (tables : TableList) (u : String),
      mapGet (ks.foldl clearTable tables) u =
        if u ∈ ks then (mapGet tables u).map (fun _ => 0) else mapGet tables u := by
  induction ks with
  | nil => intro tables u; simp
  | cons t ks ih =>
    intro tables u
    simp only [List.foldl_cons]
    rw [ih]
    by_cases hmem : u ∈ ks
    · simp only [if_pos hmem, List.mem_cons, hmem, or_true, if_pos]
      rw [mapGet_clearTable]
      by_cases hu : u = t
      · cases hx : mapGet tables u <;> simp [hu, hx]
      · simp [hu]
    · by_cases hu : u = t
      · subst hu
        simp [hmem, mapGet_clearTable]
      · simp [hmem, hu, mapGet_clearTable]

theorem clearTablesLoop_eq (fails : String → Bool) :
    ∀ (names : List String) (tables : TableList),
      clearTablesLoop fails names tables =
        ((names.takeWhile (fun t => !fails t)).foldl clearTable tables,
         (names.dropWhile (fun t => !fails t)).head?) := by
  intro names
  induction names with
  | nil => intro tables; rfl
  | cons t ts ih =>
    intro tables
    by_cases hf : fails t = true
    · simp [clearTablesLoop, hf, List.takeWhile_cons, List.dropWhile_cons]
    · have hf2 : fails t = false := by simpa using hf
      simp [clearTablesLoop, hf2, List.takeWhile_cons, List.dropWhile_cons, ih]

theorem sqliteCleanup_spec (fails : String → Bool) (db : SqliteDb) (u : String) :
    (mapGet (sqliteCleanup fails db).1.tables u =
      if u ∈ (sqliteUserTables db).takeWhile (fun t => !fails t)
      then (mapGet db.tables u).map (fun _ => 0) else mapGet db.tables u) ∧
    ((sqliteCleanup fails db).2 =
      match ((sqliteUserTables db).dropWhile (fun t => !fails t)).head? with
      | none => []
      | some t => ["SQLite cleanup failed: " ++ t]) ∧
    ((sqliteCleanup fails db).1.foreignKeys =
      (((sqliteUserTables db).dropWhile (fun t => !fails t)).head?).isNone) := by
  unfold sqliteCleanup
  rw [clearTablesLoop_eq]
  cases hh : ((sqliteUserTables db).dropWhile (fun t => !fails t)).head? with
  | none =>
    simp only [hh]
    exact ⟨by rw [mapGet_foldl_clearTable], trivial, rfl⟩
  | some tf =>
    simp only [hh]
    exact ⟨by rw [mapGet_foldl_clearTable], trivial, rfl⟩

theorem d1Cleanup_spec (fails : String → Bool) (tables : TableList) (u : String) :
    (mapGet (d1Cleanup fails tables).1 u =
      if u ∈ (d1UserTables tables).takeWhile (fun t => !fails t)
      then (mapGet tables u).map (fun _ => 0) else mapGet tables u) ∧
    ((d1Cleanup fails tables).2 =
      match ((d1UserTables tables).dropWhile (fun t => !fails t)).head? with
      | none => []
      | some t => ["D1 cleanup failed: " ++ t]) := by
  unfold d1Cleanup
  rw [clearTablesLoop_eq]
  cases hh : ((d1UserTables tables).dropWhile (fun t => !fails t)).head? with
  | none =>
    simp only [hh]
    exact ⟨by rw [mapGet_foldl_clearTable], trivial⟩
  | some tf =>
    simp only [hh]
    exact ⟨by rw [mapGet_foldl_clearTable], trivial⟩

/-- C4 (amended).  For the SQLite and D1 adapters: `cleanup` is total (no
exception reaches the caller — the whole table loop runs inside one
try/catch), and a failure while clearing one table logs a warning and
ABORTS the remaining table clears.  Precisely: the user tables strictly
before the first failing one are cleared, the failing table and every
table after it keep their rows, the warning is logged exactly when some
reached table fails, and (SQLite only) foreign-key enforcement is left
disabled when the loop aborts.  The original claim — that cleanup
continues with the remaining tables after a failure — is refuted by
`c4_counterexample`. -/
theorem c4_cleanup_aborts (fails : String → Bool) (db : SqliteDb)
    (tables : TableList) (u : String) :
    (mapGet (sqliteCleanup fails db).1.tables u =
      if u ∈ (sqliteUserTables db).takeWhile (fun t => !fails t)
      then (mapGet db.tables u).map (fun _ => 0) else mapGet db.tables u) ∧
    ((sqliteCleanup fails db).2 =
      match ((sqliteUserTables db).dropWhile (fun t => !fails t)).head? with
      | none => []
      | some t => ["SQLite cleanup failed: " ++ t]) ∧
    ((sqliteCleanup fails db).1.foreignKeys =
      (((sqliteUserTables db).dropWhile (fun t => !fails t)).head?).isNone) ∧
    (mapGet (d1Cleanup fails tables).1 u =
      if u ∈ (d1UserTables tables).takeWhile (fun t => !fails t)
      then (mapGet tables u).map (fun _ => 0) else mapGet tables u) ∧
    ((d1Cleanup fails tables).2 =
      match ((d1UserTables tables).dropWhile (fun t => !fails t)).head? with
      | none => []
      | some t => ["D1 cleanup failed: " ++ t]) :=
  ⟨(sqliteCleanup_spec fails db u).1, (sqliteCleanup_spec fails db u).2.1,
   (sqliteCleanup_spec fails db u).2.2, (d1Cleanup_spec fails tables u).1,
   (d1Cleanup_spec fails tables u).2⟩

/-- C4, counterexample to the claim as stated.  Three user tables where
the `DELETE` on `t2` throws: `t1` is cleared, but `t3` — after the
failing table — still holds its 9 rows, contradicting "cleanup continues
with the remaining tables"; a warning is logged and the call still
returns normally. -/
theorem c4_counterexample :
    mapGet (sqliteCleanup (fun t => t == "t2")
      ⟨[("t1", 5), ("t2", 7), ("t3", 9)], true⟩).1.tables "t3" = some 9 ∧
    mapGet (sqliteCleanup (fun t => t == "t2")
      ⟨[("t1", 5), ("t2", 7), ("t3", 9)], true⟩).1.tables "t1" = some 0 ∧
    (sqliteCleanup (fun t => t == "t2")
      ⟨[("t1", 5), ("t2", 7), ("t3", 9)], true⟩).2
      = ["SQLite cleanup failed: t2"] := by
  refine ⟨rfl, rfl, rfl⟩

end GTest
